import Mathlib

/-!
Verification development for css-modules-require-hook (`src/lib/index.js`).

The file shallowly embeds the resolution / caching / lazy-delivery core of the
hook: `resolveFilename`, `fetch`, the `fetchProxy` get/set traps, and the
`cssModulesHook` extension handler.  External collaborators (the postcss
pipeline, `fs.readFileSync`, `require.resolve`, `path.dirname`/`path.resolve`,
lodash's `camelCase`) are modelled as function-valued fields of `Config`, and
the lodash object combinators actually used by the code (`assign`, `mapKeys`)
are translated to association-list operations with JavaScript object
semantics (unique keys, insertion order, in-place overwrite).

Mutable state (`tokensByFile`, `require.cache`) is threaded explicitly through
`St`; observable side effects (file reads, pipeline runs, warnings,
`processCss` calls) are recorded in an event trace so that "the pipeline ran
twice" style properties are statable.  JavaScript object identity is modelled
by tagging every token mapping produced by a cache-miss fetch with a fresh
`id` drawn from a counter in `St`; a cache hit returns the stored value with
its stored `id`, so "identical reference" is `Tokens.id` equality (indeed
equality of the whole `Tokens` value).
-/

namespace CMRH

/-- JavaScript runtime values, restricted to the shapes this program stores in
proxy targets and token mappings (`undefined`, booleans, numbers, strings and
plain objects).  Property access on non-objects is modelled as `undefined`,
which is accurate for the (non-numeric, non-`length`) keys this program uses. -/
inductive JSVal where
  | undefinedV
  | boolean (b : Bool)
  | num (n : Int)
  | str (s : String)
  | obj (fields : List (String × JSVal))

/-- JavaScript truthiness for the values above. -/
def JSVal.truthy : JSVal → Bool
  | .undefinedV => false
  | .boolean b => b
  | .num n => decide (n ≠ 0)
  | .str s => decide (s ≠ "")
  | .obj _ => true

/-- Lookup of a key in a JavaScript object represented as an association list
with unique keys (first match). -/
def objGet {α : Type} (o : List (String × α)) (k : String) : Option α :=
  match o with
  | [] => none
  | (k0, v0) :: rest => if k0 = k then some v0 else objGet rest k

/-- Assignment `o[k] = v` on a JavaScript object: overwrites the value in
place when the key exists, otherwise appends the new key (JS insertion
order). -/
def objSet {α : Type} (o : List (String × α)) (k : String) (v : α) :
    List (String × α) :=
  match o with
  | [] => [(k, v)]
  | (k0, v0) :: rest =>
    if k0 = k then (k0, v) :: rest else (k0, v0) :: objSet rest k v

/-- Property read `o[k]`, with JavaScript's `undefined` for a missing key. -/
def jsIndex : JSVal → String → JSVal
  | .obj fields, k => (objGet fields k).getD .undefinedV
  | _, _ => .undefinedV

/-- Accumulator recursion behind lodash `mapKeys`: iterates the entries of the
source object in key order, writing `acc[f k] = v`; a later key whose image
collides with an earlier one overwrites it. -/
def mapKeysAux (f : String → String) (acc : List (String × String)) :
    List (String × String) → List (String × String)
  | [] => acc
  | kv :: rest => mapKeysAux f (objSet acc (f kv.1) kv.2) rest

/-- Lodash `mapKeys(o, (value, key) => f(key))`: a fresh object whose keys are
the images of `o`'s keys under `f`, values unchanged. -/
def mapKeys (o : List (String × String)) (f : String → String) :
    List (String × String) :=
  mapKeysAux f [] o

/-- Lodash `assign(a, b)`: copies the entries of `b` into `a` in key order
(entries of `b` overwrite entries of `a` at the same key) and returns `a`. -/
def assign (a : List (String × String)) :
    List (String × String) → List (String × String)
  | [] => a
  | kv :: rest => assign (objSet a kv.1 kv.2) rest

/-- Camel-case augmentation from `src/lib/index.js` line 122:
`assign(mapKeys(tokens, (value, key) => camelCaseFunc(key)), tokens)`. -/
def camelAugment (cc : String → String) (tokens : List (String × String)) :
    List (String × String) :=
  assign (mapKeys tokens cc) tokens

/-- Result object of one pipeline run (`runner.process(...)` followed by
`.root.tokens` extraction): transformed css, token mapping, warnings. -/
structure PipelineResult where
  css : String
  tokens : List (String × String)
  warnings : List String
deriving DecidableEq

/-- Token mapping object handed out by `fetch`.  `entries` is the mapping
content; `id` models JavaScript object identity (fresh per cache-miss fetch). -/
structure Tokens where
  id : Nat
  entries : List (String × String)
deriving DecidableEq

/-- Observable side effects of the fetch engine, in occurrence order. -/
inductive Ev where
  | readFile (filename : String)
  | pipelineRun (filename : String)
  | warn (text : String)
  | processCssCall (filename : String)
deriving DecidableEq

/-- Errors a fetch can raise: `readFileSync` failing to find the file, or the
pipeline throwing while parsing/transforming. -/
inductive FetchErr where
  | fileNotFound (filename : String)
  | transformError (filename : String) (msg : String)
deriving DecidableEq

/-- Mutable state visible to the hook: the per-setup token cache
`tokensByFile` (line 46), the host module loader's `require.cache` (modelled
as the list of its keys), the object-identity counter, and the event trace. -/
structure St where
  tokensByFile : List (String × Tokens)
  requireCache : List String
  nextId : Nat
  events : List Ev
deriving DecidableEq

/-- Setup configuration together with the external collaborators of the fetch
engine.  `devMode` is the computed `debugMode` of line 49; `processCss` is
whether a (side-effect-only) `processCss` callback was supplied;
`camelCaseFunc` is lodash's `camelCase` (an external library function);
`nodeResolve` is `require.resolve`; `dirname`/`pathResolve` are
`path.dirname`/`path.resolve`; `fs` is `readFileSync` (`none` = ENOENT);
`pipeline` is the postcss runner, returning transformed css, tokens and
warnings, or throwing. -/
structure Config where
  devMode : Bool
  camelCase : Bool
  camelCaseFunc : String → String
  preprocessCss : String → String → String
  processCss : Bool
  processTokens :
    Option (List (String × String) → String → PipelineResult → List (String × String))
  nodeResolve : String → String
  dirname : String → String
  pathResolve : String → String → String
  fs : String → Option String
  pipeline : String → String → Except String PipelineResult

/-- Character test of the regex `/[^\\/?%*:|"<>\.]/i` from line 88, applied to
the first character of the specifier: true iff the character is NOT one of the
class `\ / ? % * : | " < > .` (the `i` flag is irrelevant: the class contains
no letters). -/
def notInPathCharClass (c : Char) : Bool :=
  !(c == '\\' || c == '/' || c == '?' || c == '%' || c == '*' || c == ':' ||
    c == '|' || c == '"' || c == '<' || c == '>' || c == '.')

/-- Translation of `resolveFilename` (lines 86-91): if the first character of
`_to` passes the regex test, resolve through `require.resolve`; otherwise
resolve relative to `dirname(_from)`.  For the empty specifier, JavaScript
coerces `_to[0]` (`undefined`) to the string `"undefined"`, which the regex
matches, so the `require.resolve` branch is taken. -/
def resolveFilename (cfg : Config) (_to _from : String) : String :=
  match _to.toList with
  | [] => cfg.nodeResolve _to
  | c :: _ =>
    if notInPathCharClass c then cfg.nodeResolve _to
    else cfg.pathResolve (cfg.dirname _from) _to

/-- Fetch engine body after filename resolution (lines 102-143): cache check,
file read, preprocessing, pipeline run, warning forwarding, optional
camel-case augmentation, optional `processCss` call, optional `processTokens`
replacement, then either a cache commit (normal mode) or a
`delete require.cache[filename]` (dev mode). -/
def fetchResolved (cfg : Config) (filename : String) (st : St) :
    Except FetchErr Tokens × St :=
  match objGet st.tokensByFile filename with
  | some tokens => (.ok tokens, st)
  | none =>
    match cfg.fs filename with
    | none => (.error (.fileNotFound filename), st)
    | some raw =>
      let source := cfg.preprocessCss raw filename
      let st1 : St := { st with events := st.events ++ [.readFile filename] }
      match cfg.pipeline source filename with
      | .error msg =>
        (.error (.transformError filename msg),
         { st1 with events := st1.events ++ [.pipelineRun filename] })
      | .ok lazyResult =>
        let st2 : St :=
          { st1 with
            events := st1.events ++ [.pipelineRun filename]
                        ++ lazyResult.warnings.map Ev.warn }
        let tokens1 :=
          if cfg.camelCase then camelAugment cfg.camelCaseFunc lazyResult.tokens
          else lazyResult.tokens
        let st3 : St :=
          if cfg.processCss then
            { st2 with events := st2.events ++ [.processCssCall filename] }
          else st2
        let tokens2 :=
          match cfg.processTokens with
          | some pt => pt tokens1 filename lazyResult
          | none => tokens1
        let tokens : Tokens := { id := st3.nextId, entries := tokens2 }
        let st4 : St := { st3 with nextId := st3.nextId + 1 }
        if !cfg.devMode then
          (.ok tokens,
           { st4 with tokensByFile := objSet st4.tokensByFile filename tokens })
        else
          (.ok tokens,
           { st4 with requireCache := st4.requireCache.filter (fun k => k ≠ filename) })

/-- Translation of `fetch` (lines 99-144): resolve the filename, then run the
resolved-fetch body. -/
def fetch (cfg : Config) (_to _from : String) (st : St) :
    Except FetchErr Tokens × St :=
  fetchResolved cfg (resolveFilename cfg _to _from) st

/-- Number of pipeline runs for `fn` recorded in a trace. -/
def runsOf (fn : String) (evts : List Ev) : Nat :=
  evts.countP (fun e => e = Ev.pipelineRun fn)

/-- View of a `Tokens` object as the JavaScript value stored in the proxy's
`target.cache` slot. -/
def tokensToJSVal (t : Tokens) : JSVal :=
  .obj (t.entries.map (fun kv => (kv.1, .str kv.2)))

/-- Set trap of the proxy returned by `fetchProxy` (lines 179-182):
`target[name] = value; return true`. -/
def fetchProxySet (target : List (String × JSVal)) (name : String) (v : JSVal) :
    List (String × JSVal) × Bool :=
  (objSet target name v, true)

/-- Get trap of the proxy returned by `fetchProxy` (lines 152-178) for an
ordinary string key (the `Symbol(util.inspect.custom)` special case of lines
154-157 is a distinct code path never taken for string keys).  In order:
truthy own property of `target`; truthy entry of the dev-mode snapshot
`target.cache`; if the token cache has no entry, run `fetch` (storing the
result as `target.cache` in dev mode) and index its result; otherwise index
the cached mapping.  Returns the read value (or a propagated fetch error),
the possibly-updated target, and the possibly-updated global state. -/
def fetchProxyGet (cfg : Config) (filename : String)
    (target : List (String × JSVal)) (name : String) (st : St) :
    Except FetchErr JSVal × List (String × JSVal) × St :=
  let tval := (objGet target name).getD .undefinedV
  if tval.truthy then (.ok tval, target, st)
  else
    let cacheVal := (objGet target "cache").getD .undefinedV
    if cacheVal.truthy && (jsIndex cacheVal name).truthy then
      (.ok (jsIndex cacheVal name), target, st)
    else
      match objGet st.tokensByFile filename with
      | none =>
        match fetch cfg filename filename st with
        | (.error e, st1) => (.error e, target, st1)
        | (.ok tokens, st1) =>
          let target1 :=
            if cfg.devMode then objSet target "cache" (tokensToJSVal tokens)
            else target
          (.ok (jsIndex (tokensToJSVal tokens) name), target1, st1)
      | some t => (.ok (jsIndex (tokensToJSVal t) name), target, st)

/-- Outcome of one invocation of the installed extension handler. -/
inductive HookOutcome where
  | delegated (filename : String)
  | referenceError (name : String)
  | compiled (fullFilename : String) (filename : String)
deriving DecidableEq

/-- Identifiers in scope inside the body of `cssModulesHook` (lines 193-219):
its own parameters, the enclosing `forEach` callback's bindings, `setupHook`'s
parameters and locals, the module's top-level bindings, and the CommonJS
wrapper parameters — transcribed from `src/lib/index.js`. -/
def cssModulesHookScopeNames : List String :=
  ["module", "filename",
   "extension", "existingHook", "exts", "isException",
   "devMode", "extensions", "ignore", "preprocessCss", "processCss",
   "processTokens", "processorOpts", "camelCase", "append", "prepend",
   "createImportedName", "generateScopedName", "hashPrefix", "mode", "use",
   "context", "tokensByFile", "debugMode", "scopedName", "plugins", "runner",
   "resolveFilename", "fetch", "fetchProxy",
   "assign", "dirname", "genericNames", "globToRegex", "identity", "negate",
   "camelCaseFunc", "mapKeys", "readFileSync", "relative", "resolve",
   "validate", "postcss", "Values", "LocalByDefault", "ExtractImports",
   "Scope", "Parser", "debugFetch", "debugTokens", "debugSetup", "toArray",
   "buildExceptionChecker",
   "exports", "require", "__filename", "__dirname"]

/-- Translation of the installed handler `cssModulesHook` (lines 193-219).
On the exception branch the source evaluates `existingHook(m, filename)`; the
argument `m` is resolved against the scope chain first, and since no binding
named `m` exists anywhere in that chain (the handler's parameter is named
`module`), evaluation throws a ReferenceError before `existingHook` is
called.  On the other branch the handler resolves the full filename, creates
a `fetchProxy`, registers it in `require.cache`, and compiles a forwarding
module body; that branch is summarized by its resolved filename, which is all
the claims about this handler need. -/
def cssModulesHook (isException : String → Bool) (resolveFn : String → String)
    (filename : String) : HookOutcome :=
  if isException filename then
    if cssModulesHookScopeNames.contains "m" then HookOutcome.delegated filename
    else HookOutcome.referenceError "m"
  else HookOutcome.compiled (resolveFn filename) filename

/-- Drive-style prefix in the sense of the specification: an ASCII letter
followed by a colon. -/
def isDriveStyle (s : String) : Bool :=
  match s.toList with
  | c :: d :: _ => c.isAlpha && d == ':'
  | _ => false

/-- Resolution rule as the specification and claim C9 word it, written for
comparison with the translated `resolveFilename`: a specifier beginning with
`.`, `/`, `\` or a drive-style prefix is resolved relative to the directory of
the referencing file; every other specifier goes through the host's standard
module-resolution algorithm. -/
def resolveFilenameSpec (cfg : Config) (_to _from : String) : String :=
  match _to.toList with
  | [] => cfg.nodeResolve _to
  | c :: _ =>
    if c == '.' || c == '/' || c == '\\' || isDriveStyle _to then
      cfg.pathResolve (cfg.dirname _from) _to
    else cfg.nodeResolve _to

/-! ### Concrete instances used by witnesses and counterexamples -/

/-- Empty initial state: fresh `tokensByFile` (line 46), empty `require.cache`. -/
def stEmpty : St :=
  { tokensByFile := [], requireCache := [], nextId := 0, events := [] }

/-- Concrete dev-mode configuration: the pipeline deterministically produces
the single-class mapping `a ↦ "x"`; the host path functions make
`resolveFilename` the identity on absolute paths like `"/f.css"`. -/
def cfgDev : Config :=
  { devMode := true
    camelCase := false
    camelCaseFunc := fun s => s
    preprocessCss := fun s _ => s
    processCss := false
    processTokens := none
    nodeResolve := fun s => s
    dirname := fun _ => ""
    pathResolve := fun _ s => s
    fs := fun _ => some "src"
    pipeline := fun _ _ => .ok { css := "", tokens := [("a", "x")], warnings := [] } }

/-- The same configuration in normal (non-dev) mode. -/
def cfgNorm : Config := { cfgDev with devMode := false }

/-- Normal-mode configuration whose filesystem is empty: every read fails. -/
def cfgNoFile : Config := { cfgNorm with fs := fun _ => none }

/-- Consumer `processTokens` callback for the uppercasing scenario: it maps
every value of the mapping to its upper-cased form (written as a lookup over
the single lower-case value occurring in the scenario, which keeps kernel
evaluation of the witness trivial). -/
def upperPT :
    List (String × String) → String → PipelineResult → List (String × String) :=
  fun m _ _ => m.map (fun kv => (kv.1, if kv.2 = "x" then "X" else kv.2))

/-- Normal-mode configuration with the uppercasing `processTokens` of the
spec's scenario. -/
def cfgUpper : Config := { cfgNorm with processTokens := some upperPT }

/-- Stand-in for lodash `camelCase` on the inputs exercised here: lodash maps
both `"a-b"` and `"a_b"` to `"aB"` (it splits words on the separator and
capitalizes the join), which is all the counterexample needs; other strings
are irrelevant and kept unchanged. -/
def ccStand : String → String :=
  fun s => if s = "a-b" then "aB" else if s = "a_b" then "aB" else s

/-- Camel-case configuration whose pipeline emits two keys with the same
camel-cased form but different values. -/
def cfgCamel : Config :=
  { cfgNorm with
    camelCase := true
    camelCaseFunc := ccStand
    pipeline := fun _ _ =>
      .ok { css := "", tokens := [("a-b", "1"), ("a_b", "2")], warnings := [] } }

/-- Camel-case configuration with a single key, for the amended-claim witness. -/
def cfgCamel1 : Config :=
  { cfgNorm with
    camelCase := true
    camelCaseFunc := ccStand
    pipeline := fun _ _ =>
      .ok { css := "", tokens := [("a-b", "1")], warnings := [] } }

/-- State whose token cache already binds `"/f.css"` to the mapping
`foo ↦ "bar"`. -/
def stFoo : St :=
  { tokensByFile := [("/f.css", { id := 0, entries := [("foo", "bar")] })],
    requireCache := [], nextId := 1, events := [] }

/-- Configuration for the `resolveFilename` counterexample: the two host
resolvers are instantiated with functions whose outputs are distinguishable,
so the branch taken is visible in the result. -/
def cfgResolve : Config :=
  { cfgNorm with
    nodeResolve := fun s => "N:" ++ s
    dirname := fun _ => "D"
    pathResolve := fun d s => "R:" ++ d ++ "|" ++ s }

/-- State after one dev-mode fetch of `"/f.css"` from the empty state. -/
def stDev1 : St := (fetch cfgDev "/f.css" "/f.css" stEmpty).2

/-- State after a second dev-mode fetch of `"/f.css"`. -/
def stDev2 : St := (fetch cfgDev "/f.css" "/f.css" stDev1).2

/-- State after one normal-mode fetch of `"/f.css"` from the empty state. -/
def stNorm1 : St := (fetch cfgNorm "/f.css" "/f.css" stEmpty).2

/-! ### Object-operation lemmas -/

theorem objGet_objSet_self {α : Type} (o : List (String × α)) (k : String) (v : α) :
    objGet (objSet o k v) k = some v := by
  induction o with
  | nil => simp [objSet, objGet]
  | cons kv rest ih =>
    obtain ⟨k0, v0⟩ := kv
    by_cases h : k0 = k
    · simp [objSet, objGet, h]
    · simp [objSet, objGet, h, ih]

theorem objGet_objSet_ne {α : Type} (o : List (String × α)) (k k1 : String) (v : α)
    (h : k1 ≠ k) : objGet (objSet o k v) k1 = objGet o k1 := by
  have hne : ¬k = k1 := fun hh => h hh.symm
  induction o with
  | nil => simp [objSet, objGet, hne]
  | cons kv rest ih =>
    obtain ⟨k0, v0⟩ := kv
    by_cases h0 : k0 = k
    · subst h0
      simp [objSet, objGet, hne]
    · by_cases h1 : k0 = k1
      · simp [objSet, objGet, h0, h1, h]
      · simp [objSet, objGet, h0, h1, ih]

theorem objGet_of_mem_nodup {α : Type} (o : List (String × α)) (k : String) (v : α)
    (hmem : (k, v) ∈ o) (hnd : (o.map Prod.fst).Nodup) : objGet o k = some v := by
  induction o with
  | nil => simp at hmem
  | cons kv rest ih =>
    obtain ⟨k0, v0⟩ := kv
    simp only [List.map_cons, List.nodup_cons] at hnd
    rcases List.mem_cons.mp hmem with hhead | htail
    · obtain ⟨hk, hv⟩ := Prod.mk.injEq .. ▸ hhead
      simp [objGet, hk.symm, hv]
    · have hne : k0 ≠ k := by
        intro he
        exact hnd.1 (he ▸ (List.mem_map.mpr ⟨(k, v), htail, rfl⟩))
      simp [objGet, hne, ih htail hnd.2]

theorem objGet_assign_of_not_mem (a b : List (String × String)) (k : String)
    (h : k ∉ b.map Prod.fst) : objGet (assign a b) k = objGet a k := by
  induction b generalizing a with
  | nil => simp [assign]
  | cons kv rest ih =>
    simp only [List.map_cons, List.mem_cons, not_or] at h
    rw [assign, ih _ h.2]
    exact objGet_objSet_ne _ _ _ _ h.1

theorem objGet_assign_of_mem (a b : List (String × String)) (k : String) (v : String)
    (hmem : (k, v) ∈ b) (hnd : (b.map Prod.fst).Nodup) :
    objGet (assign a b) k = some v := by
  induction b generalizing a with
  | nil => simp at hmem
  | cons kv rest ih =>
    obtain ⟨k0, v0⟩ := kv
    simp only [List.map_cons, List.nodup_cons] at hnd
    rcases List.mem_cons.mp hmem with hhead | htail
    · obtain ⟨hk, hv⟩ := Prod.mk.injEq .. ▸ hhead
      subst hk; subst hv
      have hnot : k ∉ rest.map Prod.fst := by
        intro hin
        exact hnd.1 hin
      rw [assign, objGet_assign_of_not_mem _ _ _ hnot, objGet_objSet_self]
    · exact ih _ htail hnd.2

theorem objGet_mapKeysAux_of_no_hit (f : String → String) (c : String)
    (l : List (String × String)) (hl : ∀ kv ∈ l, f kv.1 ≠ c)
    (acc : List (String × String)) :
    objGet (mapKeysAux f acc l) c = objGet acc c := by
  induction l generalizing acc with
  | nil => simp [mapKeysAux]
  | cons kv rest ih =>
    rw [mapKeysAux, ih (fun x hx => hl x (List.mem_cons_of_mem _ hx)),
      objGet_objSet_ne _ _ _ _ (fun he => hl kv (List.mem_cons_self _ _) he.symm)]

theorem objGet_mapKeysAux_agree (f : String → String) (c : String) (v : String)
    (l : List (String × String)) (hall : ∀ kv ∈ l, f kv.1 = c → kv.2 = v)
    (hex : ∃ kv ∈ l, f kv.1 = c) (acc : List (String × String)) :
    objGet (mapKeysAux f acc l) c = some v := by
  induction l generalizing acc with
  | nil => simp at hex
  | cons kv rest ih =>
    by_cases hrest : ∃ x ∈ rest, f x.1 = c
    · exact ih (fun x hx => hall x (List.mem_cons_of_mem _ hx)) hrest _
    · have hhead : f kv.1 = c := by
        rcases hex with ⟨x, hx, hfx⟩
        rcases List.mem_cons.mp hx with h | h
        · exact h ▸ hfx
        · exact absurd ⟨x, h, hfx⟩ hrest
      have hv : kv.2 = v := hall kv (List.mem_cons_self _ _) hhead
      rw [mapKeysAux,
        objGet_mapKeysAux_of_no_hit f c rest
          (fun x hx he => hrest ⟨x, hx, he⟩) _,
        hhead, hv, objGet_objSet_self]

theorem objGet_camelAugment_orig (cc : String → String)
    (tokens : List (String × String)) (k v : String) (hmem : (k, v) ∈ tokens)
    (hnd : (tokens.map Prod.fst).Nodup) :
    objGet (camelAugment cc tokens) k = some v :=
  objGet_assign_of_mem _ _ _ _ hmem hnd

theorem objGet_camelAugment_of_key_mem (cc : String → String)
    (tokens : List (String × String)) (c : String)
    (hmem : c ∈ tokens.map Prod.fst) (hnd : (tokens.map Prod.fst).Nodup) :
    objGet (camelAugment cc tokens) c = objGet tokens c := by
  rcases List.mem_map.mp hmem with ⟨⟨k, v⟩, hkv, hk⟩
  subst hk
  show objGet (assign (mapKeys tokens cc) tokens) k = objGet tokens k
  rw [objGet_assign_of_mem _ _ _ _ hkv hnd, objGet_of_mem_nodup _ _ _ hkv hnd]

theorem objGet_camelAugment_camel (cc : String → String)
    (tokens : List (String × String)) (k v : String) (hmem : (k, v) ∈ tokens)
    (hnot : cc k ∉ tokens.map Prod.fst)
    (hall : ∀ kv ∈ tokens, cc kv.1 = cc k → kv.2 = v) :
    objGet (camelAugment cc tokens) (cc k) = some v := by
  rw [camelAugment, objGet_assign_of_not_mem _ _ _ hnot, mapKeys,
    objGet_mapKeysAux_agree cc (cc k) v tokens hall ⟨(k, v), hmem, rfl⟩]

/-! ### Trace-counting lemmas -/

theorem runsOf_append (fn : String) (a b : List Ev) :
    runsOf fn (a ++ b) = runsOf fn a + runsOf fn b := by
  simp [runsOf, List.countP_append]

theorem runsOf_readFile (fn fn2 : String) : runsOf fn [Ev.readFile fn2] = 0 := by
  simp [runsOf, List.countP_cons, List.countP_nil]

theorem runsOf_pipelineRun_self (fn : String) :
    runsOf fn [Ev.pipelineRun fn] = 1 := by
  simp [runsOf, List.countP_cons, List.countP_nil]

theorem runsOf_warns (fn : String) (l : List String) :
    runsOf fn (l.map Ev.warn) = 0 := by
  induction l with
  | nil => simp [runsOf]
  | cons a l ih =>
    simp only [List.map_cons, runsOf, List.countP_cons] at ih ⊢
    simp [ih]

theorem runsOf_processCssCall (fn fn2 : String) :
    runsOf fn [Ev.processCssCall fn2] = 0 := by
  simp [runsOf, List.countP_cons, List.countP_nil]

/-! ### Characterization of a successful dev-mode fetch -/

theorem fetchResolved_dev_ok (cfg : Config) (fn : String) (st : St) (t : Tokens)
    (st1 : St) (hdev : cfg.devMode = true)
    (hmiss : objGet st.tokensByFile fn = none)
    (h : fetchResolved cfg fn st = (.ok t, st1)) :
    st1.tokensByFile = st.tokensByFile ∧ fn ∉ st1.requireCache ∧
    runsOf fn st1.events = runsOf fn st.events + 1 := by
  cases hfs : cfg.fs fn with
  | none => simp [fetchResolved, hmiss, hfs] at h
  | some raw =>
    cases hpipe : cfg.pipeline (cfg.preprocessCss raw fn) fn with
    | error msg => simp [fetchResolved, hmiss, hfs, hpipe] at h
    | ok lr =>
      cases hpc : cfg.processCss with
      | false =>
        simp only [fetchResolved, hmiss, hfs, hpipe, hdev, hpc, Bool.not_true,
          Bool.false_eq_true, if_false, Prod.mk.injEq, Except.ok.injEq] at h
        obtain ⟨-, hst⟩ := h
        subst hst
        refine ⟨rfl, ?_, ?_⟩
        · simp [List.mem_filter]
        · simp [runsOf, List.countP_cons, List.countP_append, List.countP_map,
            Function.comp]
      | true =>
        simp only [fetchResolved, hmiss, hfs, hpipe, hdev, hpc, Bool.not_true,
          Bool.false_eq_true, if_false, if_true, Prod.mk.injEq,
          Except.ok.injEq] at h
        obtain ⟨-, hst⟩ := h
        subst hst
        refine ⟨rfl, ?_, ?_⟩
        · simp [List.mem_filter]
        · simp [runsOf, List.countP_cons, List.countP_append, List.countP_map,
            Function.comp]

/-! ### Claim C1 -/

/-- C1: the claim states that for a file matched by the ignore predicate the
installed hook delegates to the previously registered handler, invoking it
with the module and filename it received.  The code instead evaluates the
unbound identifier `m` in `existingHook(m, filename)` (line 195; the
handler's parameter is named `module`, and no binding named `m` exists
anywhere in the scope chain), so loading an ignored file throws a
ReferenceError and the previous handler is never invoked.  Evaluated here at
a concrete ignored file (ignore predicate matching everything, filename
`"ignored.css"`). -/
theorem c1_ignored_file_reference_error :
    cssModulesHook (fun _ => true) (fun s => s) "ignored.css"
      = HookOutcome.referenceError "m" := by
  decide

/-! ### Claim C9 -/

/-- C9 counterexample: the claim's resolution rule (`resolveFilenameSpec`)
disagrees with the code's `resolveFilename` on concrete specifiers.  A
drive-style path `C:\app.css` is claimed path-relative but the code sends it
to `require.resolve` (its first character `C` passes the regex test of line
88); a specifier starting with `:` is claimed to go to `require.resolve` but
the code resolves it relative to the referencing file (`:` is in the regex
character class). -/
theorem c9_counterexample :
    resolveFilename cfgResolve "C:\\app.css" "/r/a.js"
        ≠ resolveFilenameSpec cfgResolve "C:\\app.css" "/r/a.js" ∧
    resolveFilename cfgResolve ":x.css" "/r/a.js"
        ≠ resolveFilenameSpec cfgResolve ":x.css" "/r/a.js" := by
  constructor <;> decide

/-- Bridge between the regex character test of line 88 and its plain-language
reading. -/
theorem notInPathCharClass_iff (c : Char) :
    notInPathCharClass c = true ↔
      ¬(c = '\\' ∨ c = '/' ∨ c = '?' ∨ c = '%' ∨ c = '*' ∨ c = ':' ∨
        c = '|' ∨ c = '"' ∨ c = '<' ∨ c = '>' ∨ c = '.') := by
  simp [notInPathCharClass, and_assoc]

/-- C9 amended: `resolveFilename` resolves a specifier relative to the
directory of the referencing file exactly when its first character is one of
`\ / ? % * : | " < > .` (the regex character class of line 88), and resolves
every other specifier — including drive-letter-prefixed paths such as
`C:\...` — through the host's standard module-resolution algorithm
(`require.resolve`). -/
theorem c9_amended (cfg : Config) (_to _from : String) (c : Char)
    (rest : List Char) (h : _to.toList = c :: rest) :
    resolveFilename cfg _to _from =
      if c = '\\' ∨ c = '/' ∨ c = '?' ∨ c = '%' ∨ c = '*' ∨ c = ':' ∨
         c = '|' ∨ c = '"' ∨ c = '<' ∨ c = '>' ∨ c = '.'
      then cfg.pathResolve (cfg.dirname _from) _to
      else cfg.nodeResolve _to := by
  have hd : _to.data = c :: rest := h
  by_cases hc : c = '\\' ∨ c = '/' ∨ c = '?' ∨ c = '%' ∨ c = '*' ∨ c = ':' ∨
      c = '|' ∨ c = '"' ∨ c = '<' ∨ c = '>' ∨ c = '.'
  · have hcls : notInPathCharClass c = false :=
      Bool.eq_false_iff.mpr (fun h1 => ((notInPathCharClass_iff c).mp h1) hc)
    simp [resolveFilename, String.toList, hd, hcls, hc]
  · have hcls : notInPathCharClass c = true := (notInPathCharClass_iff c).mpr hc
    simp [resolveFilename, String.toList, hd, hcls, hc]

/-- Witness for the amended C9 at a concrete input: `./a.css` starts with `.`
and is resolved relative to the referencing file's directory. -/
theorem c9_witness :
    ("./a.css" : String).toList = '.' :: "/a.css".toList ∧
    resolveFilename cfgResolve "./a.css" "/r/a.js" =
      if '.' = '\\' ∨ '.' = '/' ∨ '.' = '?' ∨ '.' = '%' ∨ '.' = '*' ∨
         '.' = ':' ∨ '.' = '|' ∨ '.' = '"' ∨ '.' = '<' ∨ '.' = '>' ∨ '.' = '.'
      then cfgResolve.pathResolve (cfgResolve.dirname "/r/a.js") "./a.css"
      else cfgResolve.nodeResolve "./a.css" :=
  ⟨by decide, c9_amended cfgResolve "./a.css" "/r/a.js" '.' "/a.css".toList (by decide)⟩

/-! ### Claim C2 -/

/-- C2 counterexample: the claim states that every written value is returned
by a subsequent read, overriding the fetched content.  The get trap tests the
override with JavaScript truthiness (`if (target[name])`, line 159), so a
falsy override — here the empty string — is skipped and the read falls
through to the cached mapping: after `P["foo"] = ""` the read of `"foo"`
yields the cache's `"bar"`, not `""`. -/
theorem c2_counterexample :
    (fetchProxyGet cfgNorm "/f.css" (fetchProxySet [] "foo" (JSVal.str "")).1
        "foo" stFoo).1 = .ok (JSVal.str "bar") ∧
    JSVal.str "bar" ≠ JSVal.str "" := by
  constructor
  · rfl
  · intro h
    exact absurd (JSVal.str.inj h) (by decide)

/-- C2 amended: writing `P[k] = v` always succeeds (the set trap returns
`true`) and a subsequent read of `P[k]` returns `v` — taking precedence over
any fetched token content and leaving the global token cache (indeed the
whole global state and the event trace) untouched — provided `v` is truthy.
A falsy override is ignored by the get trap's truthiness test, as the
counterexample shows. -/
theorem c2_amended (cfg : Config) (filename : String)
    (target : List (String × JSVal)) (name : String) (v : JSVal) (st : St)
    (hv : v.truthy = true) :
    (fetchProxySet target name v).2 = true ∧
    fetchProxyGet cfg filename (fetchProxySet target name v).1 name st
      = (.ok v, (fetchProxySet target name v).1, st) := by
  refine ⟨rfl, ?_⟩
  show fetchProxyGet cfg filename (objSet target name v) name st
      = (.ok v, objSet target name v, st)
  simp [fetchProxyGet, objGet_objSet_self, hv]

/-- Witness for the amended C2 at a concrete truthy write. -/
theorem c2_witness :
    (JSVal.str "baz").truthy = true ∧
    ((fetchProxySet [] "foo" (JSVal.str "baz")).2 = true ∧
     fetchProxyGet cfgNorm "/f.css" (fetchProxySet [] "foo" (JSVal.str "baz")).1
         "foo" stFoo
       = (.ok (JSVal.str "baz"), (fetchProxySet [] "foo" (JSVal.str "baz")).1,
          stFoo)) :=
  ⟨by decide, c2_amended cfgNorm "/f.css" [] "foo" (JSVal.str "baz") stFoo (by decide)⟩

/-! ### Claim C8 -/

/-- C8 counterexample: the claim states a dev-mode proxy triggers fetch at
most once across all ordinary reads.  The snapshot branch requires the
snapshot's value at the key to be truthy (`target.cache && target.cache[name]`,
line 162), so reading a key absent from the mapping fetches again on every
read: two reads of the absent key `"b"` on the same proxy run the pipeline
twice. -/
theorem c8_counterexample :
    1 < runsOf "/f.css"
        ((fetchProxyGet cfgDev "/f.css"
            (fetchProxyGet cfgDev "/f.css" [] "b" stEmpty).2.1
            "b"
            (fetchProxyGet cfgDev "/f.css" [] "b" stEmpty).2.2).2.2).events := by
  decide

/-- C8 amended: in dev mode, the first fetching read stores the mapping as the
per-proxy snapshot `target.cache`, and any read of a key whose snapshot value
is truthy is answered from the snapshot without invoking fetch: the global
state (event trace included) and the target are returned unchanged.  A read
of a key absent from (or falsy in) the snapshot falls through and triggers a
new fetch each time, which is what the counterexample exhibits. -/
theorem c8_amended (cfg : Config) (filename : String)
    (target : List (String × JSVal)) (name : String) (st : St) (cv : JSVal)
    (hov : ((objGet target name).getD .undefinedV).truthy = false)
    (hcache : objGet target "cache" = some cv)
    (hcv : cv.truthy = true)
    (hval : (jsIndex cv name).truthy = true) :
    fetchProxyGet cfg filename target name st
      = (.ok (jsIndex cv name), target, st) := by
  simp [fetchProxyGet, hov, hcache, hcv, hval]

/-- Witness for the amended C8: a proxy whose snapshot holds `a ↦ "x"`
answers a read of `"a"` from the snapshot with the state unchanged. -/
theorem c8_witness :
    ((objGet [("cache", JSVal.obj [("a", JSVal.str "x")])] "a").getD .undefinedV).truthy
        = false ∧
    objGet [("cache", JSVal.obj [("a", JSVal.str "x")])] "cache"
        = some (JSVal.obj [("a", JSVal.str "x")]) ∧
    (JSVal.obj [("a", JSVal.str "x")]).truthy = true ∧
    (jsIndex (JSVal.obj [("a", JSVal.str "x")]) "a").truthy = true ∧
    fetchProxyGet cfgDev "/f.css" [("cache", JSVal.obj [("a", JSVal.str "x")])]
        "a" stEmpty
      = (.ok (JSVal.str "x"), [("cache", JSVal.obj [("a", JSVal.str "x")])],
         stEmpty) :=
  ⟨rfl, rfl, rfl, rfl,
   c8_amended cfgDev "/f.css" [("cache", JSVal.obj [("a", JSVal.str "x")])]
     "a" stEmpty (JSVal.obj [("a", JSVal.str "x")]) rfl rfl rfl rfl⟩

/-! ### Claim C3 -/

/-- C3: in live-reload (dev) mode, starting from a state with no token-cache
entry for the resolved path (the state every dev-mode run is in, since
dev-mode fetches never insert entries), two successive successful fetches of
the same file run the pipeline twice: after each fetch the token cache still
holds no entry for the path — so each next fetch is a cache miss — and the
pipeline-run count for the path grows by exactly two. -/
theorem c3_dev_fetch_twice (cfg : Config) (_to _from : String) (st : St)
    (t1 t2 : Tokens) (st1 st2 : St)
    (hdev : cfg.devMode = true)
    (hmiss : objGet st.tokensByFile (resolveFilename cfg _to _from) = none)
    (h1 : fetch cfg _to _from st = (.ok t1, st1))
    (h2 : fetch cfg _to _from st1 = (.ok t2, st2)) :
    objGet st1.tokensByFile (resolveFilename cfg _to _from) = none ∧
    objGet st2.tokensByFile (resolveFilename cfg _to _from) = none ∧
    runsOf (resolveFilename cfg _to _from) st2.events
      = runsOf (resolveFilename cfg _to _from) st.events + 2 := by
  rw [fetch] at h1 h2
  obtain ⟨ha1, -, hc1⟩ := fetchResolved_dev_ok cfg _ st t1 st1 hdev hmiss h1
  have hmiss1 : objGet st1.tokensByFile (resolveFilename cfg _to _from) = none := by
    rw [ha1]; exact hmiss
  obtain ⟨ha2, -, hc2⟩ := fetchResolved_dev_ok cfg _ st1 t2 st2 hdev hmiss1 h2
  refine ⟨hmiss1, ?_, ?_⟩
  · rw [ha2]; exact hmiss1
  · omega

/-- Witness for C3 at a concrete dev-mode run: two fetches of `"/f.css"` from
the empty state. -/
theorem c3_witness :
    cfgDev.devMode = true ∧
    objGet stEmpty.tokensByFile (resolveFilename cfgDev "/f.css" "/f.css") = none ∧
    fetch cfgDev "/f.css" "/f.css" stEmpty = (.ok ⟨0, [("a", "x")]⟩, stDev1) ∧
    fetch cfgDev "/f.css" "/f.css" stDev1 = (.ok ⟨1, [("a", "x")]⟩, stDev2) ∧
    (objGet stDev1.tokensByFile (resolveFilename cfgDev "/f.css" "/f.css") = none ∧
     objGet stDev2.tokensByFile (resolveFilename cfgDev "/f.css" "/f.css") = none ∧
     runsOf (resolveFilename cfgDev "/f.css" "/f.css") stDev2.events
       = runsOf (resolveFilename cfgDev "/f.css" "/f.css") stEmpty.events + 2) :=
  ⟨rfl, rfl, rfl, rfl,
   c3_dev_fetch_twice cfgDev "/f.css" "/f.css" stEmpty ⟨0, [("a", "x")]⟩
     ⟨1, [("a", "x")]⟩ stDev1 stDev2 rfl rfl rfl rfl⟩

/-! ### Claim C10 -/

/-- C10: a successful dev-mode fetch of a path not in the token cache never
inserts anything into `tokensByFile` — it leaves the token cache exactly as
it found it — and instead deletes the resolved filename's entry from the
host module loader's require cache; consequently the token cache remains
without an entry for every path fetched only in dev mode. -/
theorem c10_dev_leaves_cache_untouched (cfg : Config) (_to _from : String)
    (st : St) (t : Tokens) (st1 : St)
    (hdev : cfg.devMode = true)
    (hmiss : objGet st.tokensByFile (resolveFilename cfg _to _from) = none)
    (h : fetch cfg _to _from st = (.ok t, st1)) :
    st1.tokensByFile = st.tokensByFile ∧
    resolveFilename cfg _to _from ∉ st1.requireCache := by
  rw [fetch] at h
  obtain ⟨ha, hb, -⟩ := fetchResolved_dev_ok cfg _ st t st1 hdev hmiss h
  exact ⟨ha, hb⟩

/-- Witness for C10 at a concrete dev-mode fetch. -/
theorem c10_witness :
    cfgDev.devMode = true ∧
    objGet stEmpty.tokensByFile (resolveFilename cfgDev "/f.css" "/f.css") = none ∧
    fetch cfgDev "/f.css" "/f.css" stEmpty = (.ok ⟨0, [("a", "x")]⟩, stDev1) ∧
    (stDev1.tokensByFile = stEmpty.tokensByFile ∧
     resolveFilename cfgDev "/f.css" "/f.css" ∉ stDev1.requireCache) :=
  ⟨rfl, rfl, rfl,
   c10_dev_leaves_cache_untouched cfgDev "/f.css" "/f.css" stEmpty
     ⟨0, [("a", "x")]⟩ stDev1 rfl rfl rfl⟩

/-! ### Claim C4 -/

/-- C4: in normal (non-dev) mode, after a successful fetch of a specifier, a
second fetch of the same specifier returns the very same `Tokens` object
(identical value, including the identity tag `id`) and the very same state:
in particular the event trace is unchanged, so the second call performs no
file read, no preprocessing and no pipeline run.  The model's pipeline is a
plain function of the source text, matching the claim's restriction to files
with no cross-file references. -/
theorem c4_normal_fetch_idempotent (cfg : Config) (_to _from : String)
    (st : St) (t1 : Tokens) (st1 : St)
    (hdev : cfg.devMode = false)
    (h1 : fetch cfg _to _from st = (.ok t1, st1)) :
    fetch cfg _to _from st1 = (.ok t1, st1) := by
  rw [fetch] at h1 ⊢
  cases hget : objGet st.tokensByFile (resolveFilename cfg _to _from) with
  | some t =>
    simp only [fetchResolved, hget, Prod.mk.injEq, Except.ok.injEq] at h1
    obtain ⟨ht, hst⟩ := h1
    subst ht; subst hst
    simp [fetchResolved, hget]
  | none =>
    cases hfs : cfg.fs (resolveFilename cfg _to _from) with
    | none => simp [fetchResolved, hget, hfs] at h1
    | some raw =>
      cases hpipe : cfg.pipeline
          (cfg.preprocessCss raw (resolveFilename cfg _to _from))
          (resolveFilename cfg _to _from) with
      | error msg => simp [fetchResolved, hget, hfs, hpipe] at h1
      | ok lr =>
        cases hpc : cfg.processCss with
        | false =>
          simp only [fetchResolved, hget, hfs, hpipe, hdev, hpc,
            Bool.not_false, if_true, Bool.false_eq_true, if_false,
            Prod.mk.injEq, Except.ok.injEq] at h1
          obtain ⟨ht, hst⟩ := h1
          subst ht; subst hst
          simp [fetchResolved, objGet_objSet_self]
        | true =>
          simp only [fetchResolved, hget, hfs, hpipe, hdev, hpc,
            Bool.not_false, if_true, Bool.false_eq_true, if_false,
            Prod.mk.injEq, Except.ok.injEq] at h1
          obtain ⟨ht, hst⟩ := h1
          subst ht; subst hst
          simp [fetchResolved, objGet_objSet_self]

/-- Witness for C4 at a concrete normal-mode run: the second fetch returns
the identical mapping (id 0) and the identical state. -/
theorem c4_witness :
    cfgNorm.devMode = false ∧
    fetch cfgNorm "/f.css" "/f.css" stEmpty = (.ok ⟨0, [("a", "x")]⟩, stNorm1) ∧
    fetch cfgNorm "/f.css" "/f.css" stNorm1 = (.ok ⟨0, [("a", "x")]⟩, stNorm1) :=
  ⟨rfl, rfl,
   c4_normal_fetch_idempotent cfgNorm "/f.css" "/f.css" stEmpty
     ⟨0, [("a", "x")]⟩ stNorm1 rfl rfl⟩

/-! ### Claim C7 -/

/-- C7: when a fetch fails — the file cannot be read (`fileNotFound`) or the
pipeline throws (`transformError`) — the error is returned to the caller and
the token cache is left unchanged; in particular no entry, partial or
otherwise, exists for the failed path afterwards, so a later retry finds a
cache miss and re-attempts the full transformation. -/
theorem c7_failed_fetch_caches_nothing (cfg : Config) (_to _from : String)
    (st : St) (e : FetchErr)
    (h : (fetch cfg _to _from st).1 = .error e) :
    (fetch cfg _to _from st).2.tokensByFile = st.tokensByFile ∧
    objGet (fetch cfg _to _from st).2.tokensByFile
        (resolveFilename cfg _to _from) = none := by
  rw [fetch] at h ⊢
  cases hget : objGet st.tokensByFile (resolveFilename cfg _to _from) with
  | some t => simp [fetchResolved, hget] at h
  | none =>
    cases hfs : cfg.fs (resolveFilename cfg _to _from) with
    | none => simp [fetchResolved, hget, hfs]
    | some raw =>
      cases hpipe : cfg.pipeline
          (cfg.preprocessCss raw (resolveFilename cfg _to _from))
          (resolveFilename cfg _to _from) with
      | error msg => simp [fetchResolved, hget, hfs, hpipe]
      | ok lr =>
        cases hdev : cfg.devMode <;> cases hpc : cfg.processCss <;>
          simp [fetchResolved, hget, hfs, hpipe, hdev, hpc] at h

/-- Witness for C7: with an empty filesystem the fetch fails with
`fileNotFound` and the cache stays empty. -/
theorem c7_witness :
    (fetch cfgNoFile "/f.css" "/f.css" stEmpty).1
        = .error (.fileNotFound "/f.css") ∧
    ((fetch cfgNoFile "/f.css" "/f.css" stEmpty).2.tokensByFile
        = stEmpty.tokensByFile ∧
     objGet (fetch cfgNoFile "/f.css" "/f.css" stEmpty).2.tokensByFile
        (resolveFilename cfgNoFile "/f.css" "/f.css") = none) :=
  ⟨rfl,
   c7_failed_fetch_caches_nothing cfgNoFile "/f.css" "/f.css" stEmpty
     (.fileNotFound "/f.css") rfl⟩

/-! ### Claim C6 -/

/-- C6: with a `processTokens` function configured, a cache-missing fetch
returns exactly the mapping `processTokens` produced from the possibly
camel-case-augmented pipeline mapping, the resolved absolute path and the
pipeline result; and in normal mode that very mapping is what is committed
to the token cache for the path. -/
theorem c6_processTokens_replaces_mapping (cfg : Config) (_to _from : String)
    (st : St) (raw : String) (lr : PipelineResult)
    (pt : List (String × String) → String → PipelineResult → List (String × String))
    (hpt : cfg.processTokens = some pt)
    (hmiss : objGet st.tokensByFile (resolveFilename cfg _to _from) = none)
    (hfs : cfg.fs (resolveFilename cfg _to _from) = some raw)
    (hpipe : cfg.pipeline (cfg.preprocessCss raw (resolveFilename cfg _to _from))
        (resolveFilename cfg _to _from) = .ok lr) :
    (fetch cfg _to _from st).1
      = .ok { id := st.nextId,
              entries := pt (if cfg.camelCase then
                               camelAugment cfg.camelCaseFunc lr.tokens
                             else lr.tokens)
                           (resolveFilename cfg _to _from) lr } ∧
    (cfg.devMode = false →
      objGet (fetch cfg _to _from st).2.tokensByFile
          (resolveFilename cfg _to _from)
        = some { id := st.nextId,
                 entries := pt (if cfg.camelCase then
                                  camelAugment cfg.camelCaseFunc lr.tokens
                                else lr.tokens)
                              (resolveFilename cfg _to _from) lr }) := by
  rw [fetch]
  cases hdev : cfg.devMode <;> cases hpc : cfg.processCss <;>
    constructor <;>
      simp [fetchResolved, hmiss, hfs, hpipe, hpt, hdev, hpc, objGet_objSet_self]

/-- Witness for C6 with the spec's scenario: an uppercasing `processTokens`
yields a mapping whose every value is upper-cased, and that mapping is
cached. -/
theorem c6_witness :
    cfgUpper.processTokens = some upperPT ∧
    objGet stEmpty.tokensByFile (resolveFilename cfgUpper "/f.css" "/f.css")
        = none ∧
    cfgUpper.fs (resolveFilename cfgUpper "/f.css" "/f.css") = some "src" ∧
    cfgUpper.pipeline
        (cfgUpper.preprocessCss "src" (resolveFilename cfgUpper "/f.css" "/f.css"))
        (resolveFilename cfgUpper "/f.css" "/f.css")
        = .ok { css := "", tokens := [("a", "x")], warnings := [] } ∧
    ((fetch cfgUpper "/f.css" "/f.css" stEmpty).1
        = .ok { id := stEmpty.nextId,
                entries := upperPT
                  (if cfgUpper.camelCase then
                     camelAugment cfgUpper.camelCaseFunc [("a", "x")]
                   else [("a", "x")])
                  (resolveFilename cfgUpper "/f.css" "/f.css")
                  { css := "", tokens := [("a", "x")], warnings := [] } } ∧
     (cfgUpper.devMode = false →
       objGet (fetch cfgUpper "/f.css" "/f.css" stEmpty).2.tokensByFile
           (resolveFilename cfgUpper "/f.css" "/f.css")
         = some { id := stEmpty.nextId,
                  entries := upperPT
                    (if cfgUpper.camelCase then
                       camelAugment cfgUpper.camelCaseFunc [("a", "x")]
                     else [("a", "x")])
                    (resolveFilename cfgUpper "/f.css" "/f.css")
                    { css := "", tokens := [("a", "x")], warnings := [] } })) ∧
    (fetch cfgUpper "/f.css" "/f.css" stEmpty).1 = .ok ⟨0, [("a", "X")]⟩ := by
  refine ⟨rfl, rfl, rfl, rfl, ?_, by rfl⟩
  exact c6_processTokens_replaces_mapping cfgUpper "/f.css" "/f.css" stEmpty "src"
    { css := "", tokens := [("a", "x")], warnings := [] } upperPT rfl rfl rfl rfl

/-! ### Claim C5 -/

/-- C5 counterexample: the pipeline mapping `a-b ↦ "1", a_b ↦ "2"` has two
distinct keys with the same camel-cased form `"aB"` (as under lodash
`camelCase`, which `ccStand` reproduces on these inputs).  The mapping a
camel-case fetch produces binds `"aB"` to `"2"`, not to `"1"`, even though
`"aB"` is not an original key of the pipeline mapping — so the camel-cased
form of the original key `"a-b"` is not bound to the same value as `"a-b"`,
and the claim's only collision exception (collision with an original key)
does not apply. -/
theorem c5_counterexample :
    (fetch cfgCamel "/f.css" "/f.css" stEmpty).1
      = .ok ⟨0, [("aB", "2"), ("a-b", "1"), ("a_b", "2")]⟩ ∧
    ccStand "a-b" = "aB" ∧
    objGet [("a-b", "1"), ("a_b", "2")] "aB" = none ∧
    objGet [("aB", "2"), ("a-b", "1"), ("a_b", "2")] "a-b" = some "1" ∧
    objGet [("aB", "2"), ("a-b", "1"), ("a_b", "2")] "aB" = some "2" ∧
    ("2" : String) ≠ "1" :=
  ⟨rfl, rfl, rfl, rfl, rfl, by decide⟩

/-- C5 amended: with camel-case augmentation enabled (and no `processTokens`),
a cache-missing fetch returns the augmented mapping
`assign(mapKeys(tokens, camelCase), tokens)`.  In it every original key keeps
its own value; the camel-cased form of a key `k` is bound to `k`'s value
provided it collides neither with an original key (in which case the original
key's value takes precedence) nor with the camel-cased form of another
original key carrying a different value (when several keys share a
camel-cased form, the last one written wins, as the counterexample
exhibits). -/
theorem c5_camelcase_augmentation (cfg : Config) (_to _from : String)
    (st : St) (raw : String) (lr : PipelineResult) (k v : String)
    (hcc : cfg.camelCase = true)
    (hpt : cfg.processTokens = none)
    (hmiss : objGet st.tokensByFile (resolveFilename cfg _to _from) = none)
    (hfs : cfg.fs (resolveFilename cfg _to _from) = some raw)
    (hpipe : cfg.pipeline (cfg.preprocessCss raw (resolveFilename cfg _to _from))
        (resolveFilename cfg _to _from) = .ok lr)
    (hnd : (lr.tokens.map Prod.fst).Nodup)
    (hk : (k, v) ∈ lr.tokens) :
    (fetch cfg _to _from st).1
      = .ok { id := st.nextId,
              entries := camelAugment cfg.camelCaseFunc lr.tokens } ∧
    objGet (camelAugment cfg.camelCaseFunc lr.tokens) k = some v ∧
    (cfg.camelCaseFunc k ∈ lr.tokens.map Prod.fst →
      objGet (camelAugment cfg.camelCaseFunc lr.tokens) (cfg.camelCaseFunc k)
        = objGet lr.tokens (cfg.camelCaseFunc k)) ∧
    (cfg.camelCaseFunc k ∉ lr.tokens.map Prod.fst →
      (∀ kv ∈ lr.tokens, cfg.camelCaseFunc kv.1 = cfg.camelCaseFunc k → kv.2 = v) →
      objGet (camelAugment cfg.camelCaseFunc lr.tokens) (cfg.camelCaseFunc k)
        = some v) := by
  refine ⟨?_, objGet_camelAugment_orig _ _ _ _ hk hnd,
    fun hmem => objGet_camelAugment_of_key_mem _ _ _ hmem hnd,
    fun hnot hall => objGet_camelAugment_camel _ _ _ _ hk hnot hall⟩
  rw [fetch]
  cases hdev : cfg.devMode <;> cases hpc : cfg.processCss <;>
    simp [fetchResolved, hmiss, hfs, hpipe, hcc, hpt, hdev, hpc]

/-- Witness for the amended C5 at a single-key pipeline mapping `a-b ↦ "1"`:
the fetched mapping binds both `"a-b"` and its camel-cased form `"aB"` to
`"1"`. -/
theorem c5_witness :
    cfgCamel1.camelCase = true ∧
    cfgCamel1.processTokens = none ∧
    objGet stEmpty.tokensByFile (resolveFilename cfgCamel1 "/f.css" "/f.css")
        = none ∧
    cfgCamel1.fs (resolveFilename cfgCamel1 "/f.css" "/f.css") = some "src" ∧
    cfgCamel1.pipeline
        (cfgCamel1.preprocessCss "src" (resolveFilename cfgCamel1 "/f.css" "/f.css"))
        (resolveFilename cfgCamel1 "/f.css" "/f.css")
        = .ok { css := "", tokens := [("a-b", "1")], warnings := [] } ∧
    ([("a-b", "1")].map (Prod.fst (α := String) (β := String))).Nodup ∧
    ("a-b", "1") ∈ [("a-b", "1")] ∧
    ((fetch cfgCamel1 "/f.css" "/f.css" stEmpty).1
        = .ok { id := stEmpty.nextId, entries := camelAugment ccStand [("a-b", "1")] } ∧
     objGet (camelAugment ccStand [("a-b", "1")]) "a-b" = some "1" ∧
     (ccStand "a-b" ∈ [("a-b", "1")].map Prod.fst →
       objGet (camelAugment ccStand [("a-b", "1")]) (ccStand "a-b")
         = objGet [("a-b", "1")] (ccStand "a-b")) ∧
     (ccStand "a-b" ∉ [("a-b", "1")].map Prod.fst →
       (∀ kv ∈ [("a-b", "1")], ccStand kv.1 = ccStand "a-b" → kv.2 = "1") →
       objGet (camelAugment ccStand [("a-b", "1")]) (ccStand "a-b")
         = some "1")) :=
  ⟨rfl, rfl, rfl, rfl, rfl, by simp, by simp,
   c5_camelcase_augmentation cfgCamel1 "/f.css" "/f.css" stEmpty "src"
     { css := "", tokens := [("a-b", "1")], warnings := [] } "a-b" "1"
     rfl rfl rfl rfl rfl (by simp) (by simp)⟩

end CMRH
